import Mathlib

/-!
Verification of the postal-inspection-service core against its design
specification.

The Go sources are embedded shallowly:

* `internal/classifier` (subject-line classifier): pure functions
  `IsTransactional` and `Classify`, translated keyword-for-keyword.
  `Classify` iterates over two Go maps; since Go map iteration order is
  unspecified, the embedding `classifyWith` is parameterised by the
  iteration order (a permutation of the literal entry list), and
  `Classify` instantiates it with the textual order of the source.
* `internal/db`: the sqlite-backed policy store.  Tables are lists of
  rows; `INSERT OR IGNORE` plus the `UNIQUE(email)` constraint from
  `migrate` is modelled by `insertSenderRow`.
* `internal/poller`: the four-step poll cycle.  External outcomes (the
  IMAP fetches, and the fallible store calls made per intake message)
  are supplied as explicit oracle data; log writes that the poller
  ignores the error of are modelled as succeeding state updates.
-/

namespace PostalInspection

/-- Substring search on character lists: does `needle` occur contiguously
inside `hay`? -/
def containsSub (hay needle : List Char) : Bool :=
  match hay with
  | [] => needle.isEmpty
  | _ :: t => needle.isPrefixOf hay || containsSub t needle

/-- Go `strings.Contains(hay, needle)`: substring containment. -/
def strContains (hay needle : String) : Bool :=
  containsSub hay.toList needle.toList

/-- Go `strings.ToLower`, character-wise over the string's characters
(the keywords and folder names involved are all ASCII). -/
def toLowerStr (s : String) : String :=
  ⟨s.data.map Char.toLower⟩

/-! ## Classifier (`internal/classifier/classifier.go`)

`IsTransactional`: the boolean-only path, two keyword slices scanned in
their literal order. -/

/-- The `transactionalKeywords` slice of `IsTransactional`, in source order. -/
def transactionalKeywords : List String :=
  [ "order confirm", "your order", "order #", "order number", "order placed",
    "order received", "order status", "order update",
    "shipped", "shipping confirm", "shipping update", "delivery confirm",
    "delivery update", "out for delivery", "delivered", "tracking",
    "in transit", "package", "shipment",
    "receipt", "invoice", "payment confirm", "payment received",
    "transaction", "purchase confirm",
    "password reset", "verify your", "verification", "security alert",
    "login attempt", "account confirm", "subscription confirm",
    "booking confirm", "reservation confirm", "itinerary", "appointment",
    "ticket",
    "refund", "return confirm", "return label", "exchange" ]

/-- The `marketingKeywords` slice of `IsTransactional`, in source order. -/
def marketingKeywords : List String :=
  [ "% off", "sale", "deal", "discount", "save $", "save up to",
    "limited time", "flash sale", "clearance", "black friday",
    "cyber monday", "holiday", "special offer", "exclusive offer",
    "promo", "coupon",
    "newsletter", "weekly", "monthly", "digest", "roundup",
    "what\x27s new", "new arrivals", "just dropped", "trending",
    "top picks", "recommended for you", "you might like", "based on your",
    "don\x27t miss", "last chance", "ending soon", "act now", "hurry",
    "only hours left", "reminder:", "we miss you", "come back",
    "shop now", "buy now", "free shipping", "new collection",
    "introducing", "check out", "discover", "explore" ]

/-- `IsTransactional` from `internal/classifier`: lower-case the subject,
return `true` on the first transactional keyword hit, otherwise `false`
on a marketing keyword hit, otherwise default `false`. -/
def IsTransactional (subject : String) : Bool :=
  let lower := toLowerStr subject
  if transactionalKeywords.any (fun k => strContains lower k) then true
  else if marketingKeywords.any (fun k => strContains lower k) then false
  else false

/-- `Classification` struct of `internal/classifier`. -/
structure Classification where
  IsTransactional : Bool
  Reason : String
deriving DecidableEq

/-- The `transactionalPatterns` map literal of `Classify`, entries in the
textual order of the source. -/
def transactionalPatterns : List (String × String) :=
  [ ("order confirm", "Order confirmation"),
    ("your order", "Order notification"),
    ("shipped", "Shipping notification"),
    ("delivery", "Delivery update"),
    ("tracking", "Tracking update"),
    ("receipt", "Receipt"),
    ("invoice", "Invoice"),
    ("payment", "Payment notification"),
    ("password reset", "Security/Account"),
    ("verification", "Account verification"),
    ("booking confirm", "Booking confirmation"),
    ("reservation", "Reservation"),
    ("refund", "Refund notification"),
    ("return", "Return notification"),
    ("appointment", "Appointment"),
    ("itinerary", "Travel itinerary"),
    ("subscription confirm", "Subscription confirmation") ]

/-- The `marketingPatterns` map literal of `Classify`, entries in the
textual order of the source. -/
def marketingPatterns : List (String × String) :=
  [ ("% off", "Discount promotion"),
    ("sale", "Sale promotion"),
    ("deal", "Deal promotion"),
    ("newsletter", "Newsletter"),
    ("don\x27t miss", "Marketing urgency"),
    ("last chance", "Marketing urgency"),
    ("shop now", "Marketing CTA"),
    ("new arrivals", "Product marketing"),
    ("we miss you", "Re-engagement"),
    ("recommended", "Recommendation marketing") ]

/-- `Classify` with an explicit iteration order for the two Go maps:
`tOrd` (resp. `mOrd`) is the order in which `range` visits
`transactionalPatterns` (resp. `marketingPatterns`).  A run of the Go
code corresponds to some permutation of the entry lists. -/
def classifyWith (tOrd mOrd : List (String × String)) (subject : String) :
    Classification :=
  let lower := toLowerStr subject
  match tOrd.find? (fun p => strContains lower p.1) with
  | some p => ⟨true, p.2⟩
  | none =>
    match mOrd.find? (fun p => strContains lower p.1) with
    | some p => ⟨false, p.2⟩
    | none => ⟨false, "Unknown/Default to marketing"⟩

/-- `Classify` at the canonical (textual) iteration order. -/
def Classify (subject : String) : Classification :=
  classifyWith transactionalPatterns marketingPatterns subject

/-- An admissible iteration order of the Go map `transactionalPatterns`
that visits the `"receipt"` entry first. -/
def tOrdAlt : List (String × String) :=
  [ ("receipt", "Receipt"),
    ("order confirm", "Order confirmation"),
    ("your order", "Order notification"),
    ("shipped", "Shipping notification"),
    ("delivery", "Delivery update"),
    ("tracking", "Tracking update"),
    ("invoice", "Invoice"),
    ("payment", "Payment notification"),
    ("password reset", "Security/Account"),
    ("verification", "Account verification"),
    ("booking confirm", "Booking confirmation"),
    ("reservation", "Reservation"),
    ("refund", "Refund notification"),
    ("return", "Return notification"),
    ("appointment", "Appointment"),
    ("itinerary", "Travel itinerary"),
    ("subscription confirm", "Subscription confirmation") ]

/-! ## Policy store (`internal/db/db.go`, `internal/db/models.go`)

Tables are lists of rows; `AUTOINCREMENT` ids are carried as `next…Id`
counters; `DATETIME` values are abstract instants (`Nat`). -/

/-- A row of `blocked_senders` / `transactional_only_senders`. -/
structure SenderRow where
  id : Nat
  email : String
  reason : String
  createdAt : Nat
deriving DecidableEq

/-- A row of `email_details`. -/
structure EmailDetailRow where
  id : Nat
  messageID : String
  sender : String
  recipients : String
  subject : String
  date : String
  headers : String
  bodyText : String
  bodyHTML : String
  hasAttachments : Bool
deriving DecidableEq

/-- A row of `action_log` (the autoincrement id and timestamp are
immaterial to the claims and omitted). -/
structure LogEntry where
  action : String
  sender : String
  subject : String
  messageID : String
  details : String
  emailDetailID : Option Nat
deriving DecidableEq

/-- The database state after `migrate`. -/
structure DBState where
  blockedSenders : List SenderRow
  transactionalOnlySenders : List SenderRow
  emailDetails : List EmailDetailRow
  actionLog : List LogEntry
  nextBlockedId : Nat
  nextTransId : Nat
  nextDetailId : Nat
deriving DecidableEq

/-- A freshly migrated, empty database. -/
def emptyDB : DBState := ⟨[], [], [], [], 1, 1, 1⟩

/-- Action-kind constants from `internal/db/models.go`. -/
def ActionBlockedSender : String := "blocked_sender"

def ActionDeletedEmail : String := "deleted_email"

def ActionTransactionalOnlySender : String := "transactional_only_sender"

def ActionDeletedMarketing : String := "deleted_marketing"

/-- SQLite `INSERT [OR IGNORE] INTO <sender table> (email, reason,
created_at) VALUES (…)`.  `migrate` puts a `UNIQUE` constraint on
`email`, so a plain insert of a duplicate address fails with a
constraint error, while `OR IGNORE` turns that violation into a no-op
that succeeds. -/
def insertSenderRow (orIgnore : Bool) (table : List SenderRow) (nextId : Nat)
    (email reason : String) (now : Nat) :
    Except String (List SenderRow × Nat) :=
  if table.any (fun r => r.email == email) then
    if orIgnore then .ok (table, nextId)
    else .error "UNIQUE constraint failed: email"
  else .ok (table ++ [⟨nextId, email, reason, now⟩], nextId + 1)

/-- `DB.AddBlockedSender`: `INSERT OR IGNORE INTO blocked_senders …`. -/
def AddBlockedSender (db : DBState) (email reason : String) (now : Nat) :
    Except String DBState :=
  match insertSenderRow true db.blockedSenders db.nextBlockedId email reason now with
  | .ok (t, n) => .ok { db with blockedSenders := t, nextBlockedId := n }
  | .error e => .error e

/-- `DB.AddTransactionalOnlySender`:
`INSERT OR IGNORE INTO transactional_only_senders …`. -/
def AddTransactionalOnlySender (db : DBState) (email reason : String) (now : Nat) :
    Except String DBState :=
  match insertSenderRow true db.transactionalOnlySenders db.nextTransId email reason now with
  | .ok (t, n) => .ok { db with transactionalOnlySenders := t, nextTransId := n }
  | .error e => .error e

/-- `DB.IsBlocked`: `SELECT COUNT(*) … WHERE email = ?` compared with 0. -/
def IsBlocked (db : DBState) (email : String) : Bool :=
  0 < db.blockedSenders.countP (fun r => r.email == email)

/-- `DB.IsTransactionalOnly`: row count for the address compared with 0. -/
def IsTransactionalOnly (db : DBState) (email : String) : Bool :=
  0 < db.transactionalOnlySenders.countP (fun r => r.email == email)

/-- `DB.GetBlockedSenders`: all rows (the `ORDER BY created_at DESC`
clause only permutes them; the poller merely maps them to addresses). -/
def GetBlockedSenders (db : DBState) : List SenderRow :=
  db.blockedSenders

/-- `DB.GetTransactionalOnlySenders`: all rows, as above. -/
def GetTransactionalOnlySenders (db : DBState) : List SenderRow :=
  db.transactionalOnlySenders

/-- `DB.SaveEmailDetail`: insert an `email_details` row, returning the
`LastInsertId` (ids start at 1, so a successful save is always > 0). -/
def SaveEmailDetail (db : DBState) (messageID sender recipients subject date
    headers bodyText bodyHTML : String) (hasAttachments : Bool) :
    DBState × Nat :=
  let row : EmailDetailRow :=
    ⟨db.nextDetailId, messageID, sender, recipients, subject, date,
      headers, bodyText, bodyHTML, hasAttachments⟩
  ({ db with emailDetails := db.emailDetails ++ [row],
             nextDetailId := db.nextDetailId + 1 },
   db.nextDetailId)

/-- `DB.LogAction`: append an `action_log` row without an email-detail
reference. -/
def LogAction (db : DBState) (action sender subject messageID details : String) :
    DBState :=
  { db with actionLog := db.actionLog ++ [⟨action, sender, subject, messageID, details, none⟩] }

/-- `DB.LogActionWithEmail`: append an `action_log` row with an
email-detail reference. -/
def LogActionWithEmail (db : DBState)
    (action sender subject messageID details : String) (emailDetailID : Nat) :
    DBState :=
  { db with actionLog := db.actionLog ++ [⟨action, sender, subject, messageID, details, some emailDetailID⟩] }

/-! ## Poller (`internal/poller/poller.go`)

IMAP results and the outcomes of fallible store calls are supplied as
oracle data; log writes whose errors the poller only prints are
modelled as succeeding state updates. -/

/-- `imap.FetchedEmail` (full message fetched from an intake folder). -/
structure FetchedEmail where
  UID : Nat
  MessageID : String
  From : String
  To : String
  Subject : String
  Date : String
  Headers : String
  BodyText : String
  BodyHTML : String
  HasAttachments : Bool
deriving DecidableEq

/-- `imap.Email` (envelope returned by the folder scan; the `Flags`
field is never read by the poller and is omitted). -/
structure Email where
  UID : Nat
  MessageID : String
  From : String
  Subject : String
deriving DecidableEq

/-- `imap.FolderEmails`: matches found in one scanned folder. -/
structure FolderEmails where
  Folder : String
  Emails : List Email
deriving DecidableEq

/-- Outcomes of the fallible store calls made while processing one intake
message: whether `SaveEmailDetail` fails (Go then reports detail id 0),
whether the membership lookup (`IsBlocked` / `IsTransactionalOnly`)
returns an error, and whether the policy insert fails at the SQL
execution layer.  `now` is the `time.Now()` instant of the insert. -/
structure MsgOracle where
  saveDetailErr : Bool
  lookupErr : Bool
  addPolicyErr : Bool
  now : Nat
deriving DecidableEq

/-- Outcome of `FetchFullEmailsFromBlockFolder` /
`FetchFullEmailsFromTransactionalOnlyFolder`: a successful fetch pairs
each message with the oracle for the store calls made while the loop
processes it; `selectErr` is an error whose text contains
`"failed to select folder"`; `otherErr` is any other fetch error
(e.g. the connect step failing). -/
inductive FetchResult where
  | ok (msgs : List (FetchedEmail × MsgOracle))
  | selectErr
  | otherErr

/-- `Poller.saveEmailDetail`: copy the fetched email's fields into an
`email_details` row; Go reports id 0 alongside the error on failure. -/
def saveEmailDetail (o : MsgOracle) (db : DBState) (email : FetchedEmail) :
    DBState × Nat :=
  if o.saveDetailErr then (db, 0)
  else SaveEmailDetail db email.MessageID email.From email.To email.Subject
    email.Date email.Headers email.BodyText email.BodyHTML email.HasAttachments

/-- `Poller.logActionWithEmailDetail`: keep the detail reference when the
id is positive, otherwise fall back to a plain `LogAction`. -/
def logActionWithEmailDetail (db : DBState)
    (action sender subject messageID details : String) (emailDetailID : Nat) :
    DBState :=
  if 0 < emailDetailID then
    LogActionWithEmail db action sender subject messageID details emailDetailID
  else LogAction db action sender subject messageID details

/-- The `if !blocked { … }` block of `processBlockFolder`'s loop
(lines creating the Block policy and the `SenderBlocked` log entry):
when the address is not yet blocked, attempt the policy insert; on
success also log the `blocked_sender` action. -/
def blockPolicyStep (o : MsgOracle) (email : FetchedEmail) (db : DBState)
    (emailDetailID : Nat) : DBState :=
  let senderEmail := toLowerStr email.From
  if !(IsBlocked db senderEmail) then
    if o.addPolicyErr then db
    else
      match AddBlockedSender db senderEmail
          ("Moved to Block folder: " ++ email.Subject) o.now with
      | .error _ => db
      | .ok db1 =>
        logActionWithEmailDetail db1 ActionBlockedSender senderEmail
          email.Subject email.MessageID "Blocked via USPIS/Block folder"
          emailDetailID
  else db

/-- Loop body of `processBlockFolder` for one fetched message, over the
pair (database state, `uidsToDelete`). -/
def processBlockEmail (o : MsgOracle) (email : FetchedEmail)
    (st : DBState × List Nat) : DBState × List Nat :=
  let senderEmail := toLowerStr email.From
  if senderEmail = "" then st else
  let saved := saveEmailDetail o st.1 email
  if o.lookupErr then (saved.1, st.2) else
  (logActionWithEmailDetail (blockPolicyStep o email saved.1 saved.2)
     ActionDeletedEmail senderEmail email.Subject email.MessageID
     "Deleted from Block folder" saved.2,
   st.2 ++ [email.UID])

/-- The `for _, email := range emails` loop of `processBlockFolder`. -/
def runBlockLoop : List (FetchedEmail × MsgOracle) → DBState × List Nat →
    DBState × List Nat
  | [], st => st
  | m :: rest, st => runBlockLoop rest (processBlockEmail m.2 m.1 st)

/-- Result of one intake step: the database state it leaves, the UIDs it
queued for batch deletion from the intake folder, and whether the step
returned without error. -/
structure IntakeOutcome where
  db : DBState
  queued : List Nat
  ok : Bool
deriving DecidableEq

/-- `Poller.processBlockFolder` (Step 1).  `deleteFails` is the outcome
of the final `DeleteEmailsFromBlockFolder` batch call. -/
def processBlockFolder (fetch : FetchResult) (deleteFails : Bool)
    (db : DBState) : IntakeOutcome :=
  match fetch with
  | .selectErr => ⟨db, [], true⟩
  | .otherErr => ⟨db, [], false⟩
  | .ok msgs =>
    if msgs.isEmpty then ⟨db, [], true⟩
    else
      let r := runBlockLoop msgs (db, [])
      if r.2.isEmpty then ⟨r.1, r.2, true⟩
      else ⟨r.1, r.2, !deleteFails⟩

/-- The `if !isTransactionalOnly { … }` block of
`processTransactionalOnlyFolder`'s loop. -/
def transPolicyStep (o : MsgOracle) (email : FetchedEmail) (db : DBState)
    (emailDetailID : Nat) : DBState :=
  let senderEmail := toLowerStr email.From
  if !(IsTransactionalOnly db senderEmail) then
    if o.addPolicyErr then db
    else
      match AddTransactionalOnlySender db senderEmail
          ("Moved to Transactional Only folder: " ++ email.Subject) o.now with
      | .error _ => db
      | .ok db1 =>
        logActionWithEmailDetail db1 ActionTransactionalOnlySender senderEmail
          email.Subject email.MessageID
          "Added via USPIS/Transactional Only folder - marketing emails will be deleted"
          emailDetailID
  else db

def processTransactionalOnlyEmail (o : MsgOracle) (email : FetchedEmail)
    (st : DBState × List Nat) : DBState × List Nat :=
  let senderEmail := toLowerStr email.From
  if senderEmail = "" then st else
  let saved := saveEmailDetail o st.1 email
  if o.lookupErr then (saved.1, st.2) else
  (logActionWithEmailDetail (transPolicyStep o email saved.1 saved.2)
     ActionDeletedEmail senderEmail email.Subject email.MessageID
     "Deleted from Transactional Only folder" saved.2,
   st.2 ++ [email.UID])

/-- The message loop of `processTransactionalOnlyFolder`. -/
def runTransactionalOnlyLoop : List (FetchedEmail × MsgOracle) →
    DBState × List Nat → DBState × List Nat
  | [], st => st
  | m :: rest, st => runTransactionalOnlyLoop rest (processTransactionalOnlyEmail m.2 m.1 st)

/-- `Poller.processTransactionalOnlyFolder` (Step 2). -/
def processTransactionalOnlyFolder (fetch : FetchResult) (deleteFails : Bool)
    (db : DBState) : IntakeOutcome :=
  match fetch with
  | .selectErr => ⟨db, [], true⟩
  | .otherErr => ⟨db, [], false⟩
  | .ok msgs =>
    if msgs.isEmpty then ⟨db, [], true⟩
    else
      let r := runTransactionalOnlyLoop msgs (db, [])
      if r.2.isEmpty then ⟨r.1, r.2, true⟩
      else ⟨r.1, r.2, !deleteFails⟩

/-- The literal `excludedFolders` map of `poller.go`, as the list of
names mapped to `true`. -/
def excludedFolderNames : List String :=
  [ "Orders", "USPIS", "USPIS/Block", "USPIS/Transactional Only",
    "Sent Messages", "Drafts", "Deleted Messages" ]

/-- `excludedFolders[folder]`: exact-name membership in the fixed set. -/
def excludedFolders (folder : String) : Bool :=
  excludedFolderNames.contains folder

/-- External outcomes consumed by an enforcement step (Steps 3–4):
whether the initial policy-set read fails, the result of
`ListFolders`, the result of `ScanFoldersForSenders` as a function of
the folders and addresses passed to it, and whether the final batched
`DeleteEmailsFromFolders` call fails. -/
structure EnforceEnv where
  getSendersFails : Bool
  listFoldersResult : Except Unit (List String)
  scan : List String → List String → Except Unit (List FolderEmails)
  deleteFails : Bool

/-- Result of one enforcement step: the database state it leaves, the
folder list it passed to `ScanFoldersForSenders` (empty if the step
never reached the scan), the per-folder UID batches queued for
deletion, and whether the step returned without error. -/
structure EnforceOutcome where
  db : DBState
  scannedFolders : List String
  toDelete : List (String × List Nat)
  ok : Bool

/-- `Poller.deleteBlockedSenderEmails` (Step 3). -/
def deleteBlockedSenderEmails (env : EnforceEnv) (db : DBState) :
    EnforceOutcome :=
  if env.getSendersFails then ⟨db, [], [], false⟩ else
  let blockedSenders := GetBlockedSenders db
  if blockedSenders.isEmpty then ⟨db, [], [], true⟩ else
  let senderAddresses := blockedSenders.map (fun s => s.email)
  match env.listFoldersResult with
  | .error _ => ⟨db, [], [], false⟩
  | .ok allFolders =>
    let folders := allFolders.filter (fun folder => !excludedFolders folder)
    match env.scan folders senderAddresses with
    | .error _ => ⟨db, folders, [], false⟩
    | .ok results =>
      if results.isEmpty then ⟨db, folders, [], true⟩ else
      let acc := results.foldl
        (fun (acc : DBState × List (String × List Nat)) result =>
          let uids := result.Emails.map (fun e => e.UID)
          let db1 := result.Emails.foldl
            (fun d e =>
              LogAction d ActionDeletedEmail e.From e.Subject e.MessageID
                ("Auto-deleted email from blocked sender (folder: " ++
                  result.Folder ++ ")"))
            acc.1
          (db1, acc.2 ++ [(result.Folder, uids)]))
        (db, [])
      ⟨acc.1, folders, acc.2, !env.deleteFails⟩

/-- `Poller.filterMarketingEmails` (Step 4).  The classifier call uses
the canonical iteration order; the claims proved below only rely on
the verdict, which is order-invariant. -/
def filterMarketingEmails (env : EnforceEnv) (db : DBState) :
    EnforceOutcome :=
  if env.getSendersFails then ⟨db, [], [], false⟩ else
  let senders := GetTransactionalOnlySenders db
  if senders.isEmpty then ⟨db, [], [], true⟩ else
  let senderAddresses := senders.map (fun s => s.email)
  match env.listFoldersResult with
  | .error _ => ⟨db, [], [], false⟩
  | .ok allFolders =>
    let folders := allFolders.filter (fun folder => !excludedFolders folder)
    match env.scan folders senderAddresses with
    | .error _ => ⟨db, folders, [], false⟩
    | .ok results =>
      if results.isEmpty then ⟨db, folders, [], true⟩ else
      let acc := results.foldl
        (fun (acc : DBState × List (String × List Nat)) result =>
          let inner := result.Emails.foldl
            (fun (p : DBState × List Nat) e =>
              let classification := Classify e.Subject
              if classification.IsTransactional then p
              else
                (LogAction p.1 ActionDeletedMarketing e.From e.Subject
                   e.MessageID
                   ("Deleted marketing email from folder " ++ result.Folder ++
                     " (reason: " ++ classification.Reason ++ ")"),
                 p.2 ++ [e.UID]))
            (acc.1, [])
          let toDelete :=
            if inner.2.isEmpty then acc.2 else acc.2 ++ [(result.Folder, inner.2)]
          (inner.1, toDelete))
        (db, [])
      let ok := if acc.2.isEmpty then true else !env.deleteFails
      ⟨acc.1, folders, acc.2, ok⟩

/-- All external outcomes consumed by one poll cycle. -/
structure CycleEnv where
  blockFetch : FetchResult
  blockDeleteFails : Bool
  transFetch : FetchResult
  transDeleteFails : Bool
  blockEnforce : EnforceEnv
  marketingFilter : EnforceEnv

/-- The four steps of a cycle, in source order. -/
inductive StepName where
  | blockIntake
  | transactionalOnlyIntake
  | blockEnforce
  | marketingFilter
deriving DecidableEq

/-- `Poller.poll`: run the four steps sequentially, only logging each
step's error; returns the final database state and the ordered trace of
(step, returned-without-error) pairs. -/
def poll (env : CycleEnv) (db : DBState) : DBState × List (StepName × Bool) :=
  let r1 := processBlockFolder env.blockFetch env.blockDeleteFails db
  let r2 := processTransactionalOnlyFolder env.transFetch env.transDeleteFails r1.db
  let r3 := deleteBlockedSenderEmails env.blockEnforce r2.db
  let r4 := filterMarketingEmails env.marketingFilter r3.db
  (r4.db,
   [(.blockIntake, r1.ok), (.transactionalOnlyIntake, r2.ok),
    (.blockEnforce, r3.ok), (.marketingFilter, r4.ok)])

/-! ## Concrete data used by witnesses and counterexamples -/

/-- A message with a non-empty (mixed-case) From address. -/
def wEmail : FetchedEmail :=
  ⟨7, "mid-1", "Spam@Example.com", "me@example.com", "Hello", "", "", "", "", false⟩

/-- Oracle under which the policy-membership lookup errors. -/
def lookupErrOracle : MsgOracle := ⟨false, true, false, 0⟩

/-- Oracle under which the policy insert fails at the SQL layer. -/
def policyWriteErrOracle : MsgOracle := ⟨false, false, true, 0⟩

/-- An enforcement environment whose folder listing mixes regular and
excluded folders and whose scan finds no matches. -/
def scanEnv : EnforceEnv :=
  { getSendersFails := false
    listFoldersResult := .ok ["INBOX", "Orders", "USPIS/Block", "Archive"]
    scan := fun _ _ => .ok []
    deleteFails := false }

/-- A database holding one Block policy and one TransactionalOnly
policy. -/
def dbWithPolicies : DBState :=
  { emptyDB with
    blockedSenders := [⟨1, "spam@example.com", "seed", 0⟩],
    transactionalOnlySenders := [⟨1, "news@example.com", "seed", 0⟩] }

/-- A cycle environment in which Step 1's fetch fails with a
non-selection error. -/
def step1FailEnv : CycleEnv :=
  { blockFetch := .otherErr
    blockDeleteFails := false
    transFetch := .selectErr
    transDeleteFails := false
    blockEnforce := scanEnv
    marketingFilter := scanEnv }

/-! ## Classifier lemmas -/

/-- `List.any` is invariant under permutation. -/
theorem perm_any {α : Type} (p : α → Bool) {l1 l2 : List α} (h : l1.Perm l2) :
    l1.any p = l2.any p := by
  cases hb : l2.any p with
  | true =>
    rw [List.any_eq_true] at hb ⊢
    obtain ⟨x, hx, hpx⟩ := hb
    exact ⟨x, h.mem_iff.mpr hx, hpx⟩
  | false =>
    rw [List.any_eq_false] at hb ⊢
    intro x hx
    exact hb x (h.mem_iff.mp hx)

/-- The verdict of `classifyWith` is exactly "some pattern of the
transactional rule set occurs in the lower-cased subject", whatever the
map iteration orders. -/
theorem classifyWith_verdict (tOrd mOrd : List (String × String))
    (subject : String) :
    (classifyWith tOrd mOrd subject).IsTransactional =
      tOrd.any (fun p => strContains (toLowerStr subject) p.1) := by
  simp only [classifyWith]
  cases hf : tOrd.find? (fun p => strContains (toLowerStr subject) p.1) with
  | some p =>
    simp only [hf]
    have hp := List.find?_some hf
    have hmem := List.mem_of_find?_eq_some hf
    exact (List.any_eq_true.mpr ⟨p, hmem, hp⟩).symm
  | none =>
    simp only [hf]
    have hany : tOrd.any (fun p => strContains (toLowerStr subject) p.1) = false :=
      List.any_eq_false.mpr (fun x hx => by simp [List.find?_eq_none.mp hf x hx])
    rw [hany]
    cases mOrd.find? (fun p => strContains (toLowerStr subject) p.1) <;> rfl

/-! ## Claims about the classifier -/

/-- C3 counterexample: the two classifier implementations disagree on the
subject `"package"` — `IsTransactional` classifies it as transactional
(keyword `"package"`), `Classify` falls through to the marketing
default (no rule of its table matches). -/
theorem classifier_implementations_disagree :
    IsTransactional "package" = true ∧
    (Classify "package").IsTransactional = false := by
  constructor <;> decide

/-- C3 (amended): the two implementations do not agree on the verdict in
general; they do agree (both returning "not transactional") on every
subject whose lower-cased form contains no transactional keyword of
`IsTransactional` and no transactional pattern of `Classify`. -/
theorem classifier_implementations_agree_on_unmatched (s : String)
    (h1 : ∀ k ∈ transactionalKeywords, strContains (toLowerStr s) k = false)
    (h2 : ∀ p ∈ transactionalPatterns, strContains (toLowerStr s) p.1 = false) :
    IsTransactional s = (Classify s).IsTransactional ∧
    IsTransactional s = false := by
  have hI : IsTransactional s = false := by
    simp only [IsTransactional]
    have hany : transactionalKeywords.any (fun k => strContains (toLowerStr s) k) = false :=
      List.any_eq_false.mpr (fun x hx => by simp [h1 x hx])
    rw [hany]
    cases marketingKeywords.any (fun k => strContains (toLowerStr s) k) <;> simp
  have hC : (Classify s).IsTransactional = false := by
    rw [Classify, classifyWith_verdict]
    exact List.any_eq_false.mpr (fun x hx => by simp [h2 x hx])
  exact ⟨hI.trans hC.symm, hI⟩

/-- Witness for the amended C3 at the concrete subject
`"hello world"`. -/
theorem classifier_implementations_agree_on_unmatched_witness :
    IsTransactional "hello world" = (Classify "hello world").IsTransactional ∧
    IsTransactional "hello world" = false :=
  classifier_implementations_agree_on_unmatched "hello world" (by decide) (by decide)

/-- C4 counterexample: two runs of `Classify` on the subject
`"shipped receipt"` that differ only in the (unspecified) Go map
iteration order return different `Classification` values — the reasons
disagree (`"Shipping notification"` vs `"Receipt"`). -/
theorem classify_two_runs_differ :
    tOrdAlt.Perm transactionalPatterns ∧
    classifyWith transactionalPatterns marketingPatterns "shipped receipt" ≠
      classifyWith tOrdAlt marketingPatterns "shipped receipt" := by
  constructor
  · decide
  · decide

/-- C4 (amended): the `IsTransactional` verdict of `Classify` is
deterministic (invariant under the map iteration order) and
case-insensitive, and for a fixed iteration order the full
`Classification` is case-insensitive; only the `Reason` may differ
between two evaluations, when several patterns of the same rule set
match. -/
theorem classify_verdict_deterministic_case_insensitive
    (tOrd mOrd tOrd2 mOrd2 : List (String × String)) (s s2 : String)
    (ht : tOrd.Perm transactionalPatterns) (hm : mOrd.Perm marketingPatterns)
    (ht2 : tOrd2.Perm transactionalPatterns) (hm2 : mOrd2.Perm marketingPatterns)
    (hcase : toLowerStr s = toLowerStr s2) :
    (classifyWith tOrd mOrd s).IsTransactional =
      (classifyWith tOrd2 mOrd2 s2).IsTransactional ∧
    classifyWith tOrd mOrd s = classifyWith tOrd mOrd s2 := by
  constructor
  · rw [classifyWith_verdict, classifyWith_verdict, hcase,
      perm_any _ ht, perm_any _ ht2]
  · simp only [classifyWith]
    rw [hcase]

/-- Witness for the amended C4: a re-cased subject evaluated under two
different admissible iteration orders keeps the same verdict. -/
theorem classify_verdict_deterministic_case_insensitive_witness :
    (classifyWith transactionalPatterns marketingPatterns "Shipped Receipt").IsTransactional =
      (classifyWith tOrdAlt marketingPatterns "shipped receipt").IsTransactional ∧
    classifyWith transactionalPatterns marketingPatterns "Shipped Receipt" =
      classifyWith transactionalPatterns marketingPatterns "shipped receipt" :=
  classify_verdict_deterministic_case_insensitive
    transactionalPatterns marketingPatterns tOrdAlt marketingPatterns
    "Shipped Receipt" "shipped receipt"
    (List.Perm.refl _) (List.Perm.refl _) (by decide) (List.Perm.refl _)
    (by decide)

/-- C6: a subject containing none of `Classify`'s transactional patterns
and none of its marketing patterns is classified as not transactional
(the delete-biased default), under every map iteration order. -/
theorem classifier_defaulting (tOrd mOrd : List (String × String)) (s : String)
    (ht : tOrd.Perm transactionalPatterns) (hm : mOrd.Perm marketingPatterns)
    (h1 : ∀ p ∈ transactionalPatterns, strContains (toLowerStr s) p.1 = false)
    (h2 : ∀ p ∈ marketingPatterns, strContains (toLowerStr s) p.1 = false) :
    (classifyWith tOrd mOrd s).IsTransactional = false := by
  rw [classifyWith_verdict, perm_any _ ht]
  exact List.any_eq_false.mpr (fun x hx => by simp [h1 x hx])

/-- Witness for C6 at the concrete subject `"hello world"`. -/
theorem classifier_defaulting_witness :
    (Classify "hello world").IsTransactional = false :=
  classifier_defaulting transactionalPatterns marketingPatterns "hello world"
    (List.Perm.refl _) (List.Perm.refl _) (by decide) (by decide)

/-- C7: a subject containing at least one transactional pattern of
`Classify` is classified transactional under every map iteration order,
whatever marketing patterns it also contains — the transactional rule
set is evaluated before the marketing rule set. -/
theorem classifier_priority (tOrd mOrd : List (String × String)) (s : String)
    (ht : tOrd.Perm transactionalPatterns) (hm : mOrd.Perm marketingPatterns)
    (hmatch : ∃ p ∈ transactionalPatterns, strContains (toLowerStr s) p.1 = true) :
    (classifyWith tOrd mOrd s).IsTransactional = true := by
  rw [classifyWith_verdict, perm_any _ ht]
  obtain ⟨p, hp, hc⟩ := hmatch
  exact List.any_eq_true.mpr ⟨p, hp, hc⟩

/-- Witness for C7 at the spec's pinned example subject, which contains
both a transactional pattern (`"order confirm"`) and a marketing
pattern (`"% off"`). -/
theorem classifier_priority_witness :
    (Classify "Order Confirmation - 20% off your next order").IsTransactional = true :=
  classifier_priority transactionalPatterns marketingPatterns
    "Order Confirmation - 20% off your next order"
    (List.Perm.refl _) (List.Perm.refl _)
    ⟨("order confirm", "Order confirmation"), by decide, by decide⟩

/-! ## Claims about the policy store -/

/-- `INSERT OR IGNORE` into a sender table whose emails are unique (the
`UNIQUE(email)` constraint): the first call leaves exactly one row for
the address and the second call succeeds without changing anything. -/
theorem insertSenderRow_idempotent (table : List SenderRow) (nextId : Nat)
    (email r1 r2 : String) (t1 t2 : Nat)
    (hnd : (table.map (fun r => r.email)).Nodup) :
    ∃ t n, insertSenderRow true table nextId email r1 t1 = .ok (t, n) ∧
      insertSenderRow true t n email r2 t2 = .ok (t, n) ∧
      t.countP (fun r => r.email == email) = 1 := by
  by_cases h : table.any (fun r => r.email == email) = true
  · refine ⟨table, nextId, by simp [insertSenderRow, h], by simp [insertSenderRow, h], ?_⟩
    obtain ⟨r, hr, hre⟩ := List.any_eq_true.mp h
    have hemail : r.email = email := by simpa using hre
    have hmem : email ∈ table.map (fun r => r.email) :=
      List.mem_map.mpr ⟨r, hr, hemail⟩
    have hcount : (table.map (fun r => r.email)).count email = 1 :=
      List.count_eq_one_of_mem hnd hmem
    calc table.countP (fun r => r.email == email)
        = (table.map (fun r => r.email)).countP (fun x => x == email) := by
          rw [List.countP_map]; rfl
      _ = 1 := hcount
  · have h0 : table.countP (fun r => r.email == email) = 0 := by
      rw [List.countP_eq_zero]
      intro r hr
      have := List.any_eq_false.mp (Bool.eq_false_iff.mpr h) r hr
      simpa using this
    refine ⟨table ++ [⟨nextId, email, r1, t1⟩], nextId + 1, ?_, ?_, ?_⟩
    · simp [insertSenderRow, h]
    · have hany : (table ++ [(⟨nextId, email, r1, t1⟩ : SenderRow)]).any
          (fun r => r.email == email) = true := by
        simp [List.any_append]
      simp [insertSenderRow, hany]
    · rw [List.countP_append, h0]
      simp

/-- C8: `AddBlockedSender` and `AddTransactionalOnlySender` are
idempotent — on a database whose sender tables respect the `UNIQUE`
email constraint, calling either twice for the same address leaves
exactly one stored policy row for that address, and the second call
returns without error and without changing the state left by the
first. -/
theorem policy_idempotence (db : DBState) (email r1 r2 : String) (t1 t2 : Nat)
    (hb : (db.blockedSenders.map (fun r => r.email)).Nodup)
    (ht : (db.transactionalOnlySenders.map (fun r => r.email)).Nodup) :
    (∃ db1 db2, AddBlockedSender db email r1 t1 = .ok db1 ∧
      AddBlockedSender db1 email r2 t2 = .ok db2 ∧ db2 = db1 ∧
      db1.blockedSenders.countP (fun r => r.email == email) = 1) ∧
    (∃ db1 db2, AddTransactionalOnlySender db email r1 t1 = .ok db1 ∧
      AddTransactionalOnlySender db1 email r2 t2 = .ok db2 ∧ db2 = db1 ∧
      db1.transactionalOnlySenders.countP (fun r => r.email == email) = 1) := by
  constructor
  · obtain ⟨t, n, h1, h2, hcount⟩ :=
      insertSenderRow_idempotent db.blockedSenders db.nextBlockedId email r1 r2 t1 t2 hb
    refine ⟨{ db with blockedSenders := t, nextBlockedId := n }, _,
      ?_, ?_, rfl, hcount⟩
    · simp [AddBlockedSender, h1]
    · simp [AddBlockedSender, h2]
  · obtain ⟨t, n, h1, h2, hcount⟩ :=
      insertSenderRow_idempotent db.transactionalOnlySenders db.nextTransId email r1 r2 t1 t2 ht
    refine ⟨{ db with transactionalOnlySenders := t, nextTransId := n }, _,
      ?_, ?_, rfl, hcount⟩
    · simp [AddTransactionalOnlySender, h1]
    · simp [AddTransactionalOnlySender, h2]

/-- Witness for C8 on the freshly migrated database. -/
theorem policy_idempotence_witness :
    (∃ db1 db2, AddBlockedSender emptyDB "spam@example.com" "r1" 1 = .ok db1 ∧
      AddBlockedSender db1 "spam@example.com" "r2" 2 = .ok db2 ∧ db2 = db1 ∧
      db1.blockedSenders.countP (fun r => r.email == "spam@example.com") = 1) ∧
    (∃ db1 db2, AddTransactionalOnlySender emptyDB "spam@example.com" "r1" 1 = .ok db1 ∧
      AddTransactionalOnlySender db1 "spam@example.com" "r2" 2 = .ok db2 ∧ db2 = db1 ∧
      db1.transactionalOnlySenders.countP (fun r => r.email == "spam@example.com") = 1) :=
  policy_idempotence emptyDB "spam@example.com" "r1" "r2" 1 2 (by decide) (by decide)

/-! ## Poll-cycle lemmas -/

/-- `saveEmailDetail` touches only the `email_details` table. -/
theorem saveEmailDetail_fields (o : MsgOracle) (db : DBState) (e : FetchedEmail) :
    (saveEmailDetail o db e).1.actionLog = db.actionLog ∧
    (saveEmailDetail o db e).1.blockedSenders = db.blockedSenders ∧
    (saveEmailDetail o db e).1.transactionalOnlySenders = db.transactionalOnlySenders := by
  cases h : o.saveDetailErr <;> simp [saveEmailDetail, SaveEmailDetail, h]

/-- `logActionWithEmailDetail` appends exactly one log row with the given
fields (the detail reference depending on the id's sign). -/
theorem logActionWithEmailDetail_log (db : DBState)
    (a s su m d : String) (i : Nat) :
    ∃ ref, (logActionWithEmailDetail db a s su m d i).actionLog =
      db.actionLog ++ [⟨a, s, su, m, d, ref⟩] := by
  unfold logActionWithEmailDetail LogActionWithEmail LogAction
  split
  · exact ⟨some i, rfl⟩
  · exact ⟨none, rfl⟩

/-- A successful `AddBlockedSender` leaves the action log unchanged. -/
theorem AddBlockedSender_ok_log {db db1 : DBState} {e r : String} {t : Nat}
    (h : AddBlockedSender db e r t = .ok db1) : db1.actionLog = db.actionLog := by
  unfold AddBlockedSender at h
  cases hi : insertSenderRow true db.blockedSenders db.nextBlockedId e r t with
  | ok tn => rw [hi] at h; cases h; rfl
  | error s => rw [hi] at h; cases h

/-- A successful `AddTransactionalOnlySender` leaves the action log
unchanged. -/
theorem AddTransactionalOnlySender_ok_log {db db1 : DBState} {e r : String} {t : Nat}
    (h : AddTransactionalOnlySender db e r t = .ok db1) :
    db1.actionLog = db.actionLog := by
  unfold AddTransactionalOnlySender at h
  cases hi : insertSenderRow true db.transactionalOnlySenders db.nextTransId e r t with
  | ok tn => rw [hi] at h; cases h; rfl
  | error s => rw [hi] at h; cases h

/-- The policy block of Step 1's loop only appends to the action log. -/
theorem blockPolicyStep_log (o : MsgOracle) (email : FetchedEmail)
    (db : DBState) (i : Nat) :
    ∃ new, (blockPolicyStep o email db i).actionLog = db.actionLog ++ new := by
  simp only [blockPolicyStep]
  split
  · split
    · exact ⟨[], (List.append_nil _).symm⟩
    · split
      · exact ⟨[], (List.append_nil _).symm⟩
      · next db1 heq =>
        obtain ⟨ref, hr⟩ := logActionWithEmailDetail_log db1 ActionBlockedSender
          (toLowerStr email.From) email.Subject email.MessageID
          "Blocked via USPIS/Block folder" i
        exact ⟨_, by rw [hr, AddBlockedSender_ok_log heq]⟩
  · exact ⟨[], (List.append_nil _).symm⟩

/-- The policy block of Step 2's loop only appends to the action log. -/
theorem transPolicyStep_log (o : MsgOracle) (email : FetchedEmail)
    (db : DBState) (i : Nat) :
    ∃ new, (transPolicyStep o email db i).actionLog = db.actionLog ++ new := by
  simp only [transPolicyStep]
  split
  · split
    · exact ⟨[], (List.append_nil _).symm⟩
    · split
      · exact ⟨[], (List.append_nil _).symm⟩
      · next db1 heq =>
        obtain ⟨ref, hr⟩ := logActionWithEmailDetail_log db1 ActionTransactionalOnlySender
          (toLowerStr email.From) email.Subject email.MessageID
          "Added via USPIS/Transactional Only folder - marketing emails will be deleted" i
        exact ⟨_, by rw [hr, AddTransactionalOnlySender_ok_log heq]⟩
  · exact ⟨[], (List.append_nil _).symm⟩

/-- Step 1's loop body either leaves the delete queue alone (skip paths)
or appends exactly the message's UID. -/
theorem processBlockEmail_queued (o : MsgOracle) (email : FetchedEmail)
    (st : DBState × List Nat) :
    (processBlockEmail o email st).2 = st.2 ∨
    (processBlockEmail o email st).2 = st.2 ++ [email.UID] := by
  simp only [processBlockEmail]
  split
  · exact Or.inl rfl
  · split
    · exact Or.inl rfl
    · exact Or.inr rfl

theorem processTransactionalOnlyEmail_queued (o : MsgOracle) (email : FetchedEmail)
    (st : DBState × List Nat) :
    (processTransactionalOnlyEmail o email st).2 = st.2 ∨
    (processTransactionalOnlyEmail o email st).2 = st.2 ++ [email.UID] := by
  simp only [processTransactionalOnlyEmail]
  split
  · exact Or.inl rfl
  · split
    · exact Or.inl rfl
    · exact Or.inr rfl

/-- Step 1's loop body only appends to the action log. -/
theorem processBlockEmail_log (o : MsgOracle) (email : FetchedEmail)
    (st : DBState × List Nat) :
    ∃ new, (processBlockEmail o email st).1.actionLog = st.1.actionLog ++ new := by
  simp only [processBlockEmail]
  split
  · exact ⟨[], (List.append_nil _).symm⟩
  · split
    · exact ⟨[], by rw [(saveEmailDetail_fields o st.1 email).1, List.append_nil]⟩
    · obtain ⟨new1, h1⟩ := blockPolicyStep_log o email
        (saveEmailDetail o st.1 email).1 (saveEmailDetail o st.1 email).2
      obtain ⟨ref, h2⟩ := logActionWithEmailDetail_log
        (blockPolicyStep o email (saveEmailDetail o st.1 email).1 (saveEmailDetail o st.1 email).2)
        ActionDeletedEmail (toLowerStr email.From) email.Subject email.MessageID
        "Deleted from Block folder" (saveEmailDetail o st.1 email).2
      refine ⟨new1 ++ [⟨ActionDeletedEmail, toLowerStr email.From, email.Subject,
        email.MessageID, "Deleted from Block folder", ref⟩], ?_⟩
      rw [h2, h1, (saveEmailDetail_fields o st.1 email).1, List.append_assoc]

theorem processTransactionalOnlyEmail_log (o : MsgOracle) (email : FetchedEmail)
    (st : DBState × List Nat) :
    ∃ new, (processTransactionalOnlyEmail o email st).1.actionLog =
      st.1.actionLog ++ new := by
  simp only [processTransactionalOnlyEmail]
  split
  · exact ⟨[], (List.append_nil _).symm⟩
  · split
    · exact ⟨[], by rw [(saveEmailDetail_fields o st.1 email).1, List.append_nil]⟩
    · obtain ⟨new1, h1⟩ := transPolicyStep_log o email
        (saveEmailDetail o st.1 email).1 (saveEmailDetail o st.1 email).2
      obtain ⟨ref, h2⟩ := logActionWithEmailDetail_log
        (transPolicyStep o email (saveEmailDetail o st.1 email).1 (saveEmailDetail o st.1 email).2)
        ActionDeletedEmail (toLowerStr email.From) email.Subject email.MessageID
        "Deleted from Transactional Only folder" (saveEmailDetail o st.1 email).2
      refine ⟨new1 ++ [⟨ActionDeletedEmail, toLowerStr email.From, email.Subject,
        email.MessageID, "Deleted from Transactional Only folder", ref⟩], ?_⟩
      rw [h2, h1, (saveEmailDetail_fields o st.1 email).1, List.append_assoc]

/-- On a lookup error, Step 1's loop body reduces to the snapshot save. -/
theorem processBlockEmail_skip (o : MsgOracle) (email : FetchedEmail)
    (st : DBState × List Nat)
    (hfrom : ¬ toLowerStr email.From = "") (hlk : o.lookupErr = true) :
    processBlockEmail o email st = ((saveEmailDetail o st.1 email).1, st.2) := by
  simp [processBlockEmail, hfrom, hlk]

theorem processTransactionalOnlyEmail_skip (o : MsgOracle) (email : FetchedEmail)
    (st : DBState × List Nat)
    (hfrom : ¬ toLowerStr email.From = "") (hlk : o.lookupErr = true) :
    processTransactionalOnlyEmail o email st = ((saveEmailDetail o st.1 email).1, st.2) := by
  simp [processTransactionalOnlyEmail, hfrom, hlk]

/-- With a working lookup, Step 1's loop body queues the UID and appends
the `deleted_email` entry, whatever the policy-insert outcome. -/
theorem processBlockEmail_deleted (o : MsgOracle) (email : FetchedEmail)
    (st : DBState × List Nat)
    (hfrom : ¬ toLowerStr email.From = "") (hlk : o.lookupErr = false) :
    (processBlockEmail o email st).2 = st.2 ++ [email.UID] ∧
    ∃ ref, (⟨ActionDeletedEmail, toLowerStr email.From, email.Subject,
        email.MessageID, "Deleted from Block folder", ref⟩ : LogEntry) ∈
      (processBlockEmail o email st).1.actionLog := by
  have hmain : processBlockEmail o email st =
      (logActionWithEmailDetail
         (blockPolicyStep o email (saveEmailDetail o st.1 email).1 (saveEmailDetail o st.1 email).2)
         ActionDeletedEmail (toLowerStr email.From) email.Subject email.MessageID
         "Deleted from Block folder" (saveEmailDetail o st.1 email).2,
       st.2 ++ [email.UID]) := by
    simp [processBlockEmail, hfrom, hlk]
  rw [hmain]
  refine ⟨rfl, ?_⟩
  obtain ⟨ref, h2⟩ := logActionWithEmailDetail_log
    (blockPolicyStep o email (saveEmailDetail o st.1 email).1 (saveEmailDetail o st.1 email).2)
    ActionDeletedEmail (toLowerStr email.From) email.Subject email.MessageID
    "Deleted from Block folder" (saveEmailDetail o st.1 email).2
  exact ⟨ref, by rw [h2]; exact List.mem_append_right _ (List.mem_singleton.mpr rfl)⟩

theorem processTransactionalOnlyEmail_deleted (o : MsgOracle) (email : FetchedEmail)
    (st : DBState × List Nat)
    (hfrom : ¬ toLowerStr email.From = "") (hlk : o.lookupErr = false) :
    (processTransactionalOnlyEmail o email st).2 = st.2 ++ [email.UID] ∧
    ∃ ref, (⟨ActionDeletedEmail, toLowerStr email.From, email.Subject,
        email.MessageID, "Deleted from Transactional Only folder", ref⟩ : LogEntry) ∈
      (processTransactionalOnlyEmail o email st).1.actionLog := by
  have hmain : processTransactionalOnlyEmail o email st =
      (logActionWithEmailDetail
         (transPolicyStep o email (saveEmailDetail o st.1 email).1 (saveEmailDetail o st.1 email).2)
         ActionDeletedEmail (toLowerStr email.From) email.Subject email.MessageID
         "Deleted from Transactional Only folder" (saveEmailDetail o st.1 email).2,
       st.2 ++ [email.UID]) := by
    simp [processTransactionalOnlyEmail, hfrom, hlk]
  rw [hmain]
  refine ⟨rfl, ?_⟩
  obtain ⟨ref, h2⟩ := logActionWithEmailDetail_log
    (transPolicyStep o email (saveEmailDetail o st.1 email).1 (saveEmailDetail o st.1 email).2)
    ActionDeletedEmail (toLowerStr email.From) email.Subject email.MessageID
    "Deleted from Transactional Only folder" (saveEmailDetail o st.1 email).2
  exact ⟨ref, by rw [h2]; exact List.mem_append_right _ (List.mem_singleton.mpr rfl)⟩

theorem runBlockLoop_append (l1 l2 : List (FetchedEmail × MsgOracle))
    (st : DBState × List Nat) :
    runBlockLoop (l1 ++ l2) st = runBlockLoop l2 (runBlockLoop l1 st) := by
  induction l1 generalizing st with
  | nil => rfl
  | cons m rest ih => simp [runBlockLoop, ih]

theorem runTransactionalOnlyLoop_append (l1 l2 : List (FetchedEmail × MsgOracle))
    (st : DBState × List Nat) :
    runTransactionalOnlyLoop (l1 ++ l2) st =
      runTransactionalOnlyLoop l2 (runTransactionalOnlyLoop l1 st) := by
  induction l1 generalizing st with
  | nil => rfl
  | cons m rest ih => simp [runTransactionalOnlyLoop, ih]

/-- Step 1's loop never removes queued UIDs or logged entries. -/
theorem runBlockLoop_mono (msgs : List (FetchedEmail × MsgOracle))
    (st : DBState × List Nat) :
    (∀ u ∈ st.2, u ∈ (runBlockLoop msgs st).2) ∧
    (∀ e ∈ st.1.actionLog, e ∈ (runBlockLoop msgs st).1.actionLog) := by
  induction msgs generalizing st with
  | nil => exact ⟨fun u hu => hu, fun e he => he⟩
  | cons m rest ih =>
    simp only [runBlockLoop]
    constructor
    · intro u hu
      refine (ih (processBlockEmail m.2 m.1 st)).1 u ?_
      rcases processBlockEmail_queued m.2 m.1 st with h | h
      · rw [h]; exact hu
      · rw [h]; exact List.mem_append_left _ hu
    · intro e he
      refine (ih (processBlockEmail m.2 m.1 st)).2 e ?_
      obtain ⟨new, h⟩ := processBlockEmail_log m.2 m.1 st
      rw [h]; exact List.mem_append_left _ he

theorem runTransactionalOnlyLoop_mono (msgs : List (FetchedEmail × MsgOracle))
    (st : DBState × List Nat) :
    (∀ u ∈ st.2, u ∈ (runTransactionalOnlyLoop msgs st).2) ∧
    (∀ e ∈ st.1.actionLog, e ∈ (runTransactionalOnlyLoop msgs st).1.actionLog) := by
  induction msgs generalizing st with
  | nil => exact ⟨fun u hu => hu, fun e he => he⟩
  | cons m rest ih =>
    simp only [runTransactionalOnlyLoop]
    constructor
    · intro u hu
      refine (ih (processTransactionalOnlyEmail m.2 m.1 st)).1 u ?_
      rcases processTransactionalOnlyEmail_queued m.2 m.1 st with h | h
      · rw [h]; exact hu
      · rw [h]; exact List.mem_append_left _ hu
    · intro e he
      refine (ih (processTransactionalOnlyEmail m.2 m.1 st)).2 e ?_
      obtain ⟨new, h⟩ := processTransactionalOnlyEmail_log m.2 m.1 st
      rw [h]; exact List.mem_append_left _ he

/-- Through a whole run of Step 1's loop, a message with a non-empty
From and a working lookup ends up queued and logged. -/
theorem runBlockLoop_member (pre post : List (FetchedEmail × MsgOracle))
    (m : FetchedEmail × MsgOracle) (st : DBState × List Nat)
    (hfrom : ¬ toLowerStr m.1.From = "") (hlk : m.2.lookupErr = false) :
    m.1.UID ∈ (runBlockLoop (pre ++ m :: post) st).2 ∧
    ∃ ref, (⟨ActionDeletedEmail, toLowerStr m.1.From, m.1.Subject, m.1.MessageID,
        "Deleted from Block folder", ref⟩ : LogEntry) ∈
      (runBlockLoop (pre ++ m :: post) st).1.actionLog := by
  rw [runBlockLoop_append]
  simp only [runBlockLoop]
  obtain ⟨hq, ref, hl⟩ :=
    processBlockEmail_deleted m.2 m.1 (runBlockLoop pre st) hfrom hlk
  constructor
  · apply (runBlockLoop_mono post _).1
    rw [hq]
    exact List.mem_append_right _ (List.mem_singleton.mpr rfl)
  · exact ⟨ref, (runBlockLoop_mono post _).2 _ hl⟩

theorem runTransactionalOnlyLoop_member (pre post : List (FetchedEmail × MsgOracle))
    (m : FetchedEmail × MsgOracle) (st : DBState × List Nat)
    (hfrom : ¬ toLowerStr m.1.From = "") (hlk : m.2.lookupErr = false) :
    m.1.UID ∈ (runTransactionalOnlyLoop (pre ++ m :: post) st).2 ∧
    ∃ ref, (⟨ActionDeletedEmail, toLowerStr m.1.From, m.1.Subject, m.1.MessageID,
        "Deleted from Transactional Only folder", ref⟩ : LogEntry) ∈
      (runTransactionalOnlyLoop (pre ++ m :: post) st).1.actionLog := by
  rw [runTransactionalOnlyLoop_append]
  simp only [runTransactionalOnlyLoop]
  obtain ⟨hq, ref, hl⟩ :=
    processTransactionalOnlyEmail_deleted m.2 m.1 (runTransactionalOnlyLoop pre st) hfrom hlk
  constructor
  · apply (runTransactionalOnlyLoop_mono post _).1
    rw [hq]
    exact List.mem_append_right _ (List.mem_singleton.mpr rfl)
  · exact ⟨ref, (runTransactionalOnlyLoop_mono post _).2 _ hl⟩

/-- With a non-empty fetch, Step 1 exposes exactly its loop's final
state and queue. -/
theorem processBlockFolder_ok (msgs : List (FetchedEmail × MsgOracle))
    (deleteFails : Bool) (db : DBState) (h : msgs ≠ []) :
    (processBlockFolder (.ok msgs) deleteFails db).db = (runBlockLoop msgs (db, [])).1 ∧
    (processBlockFolder (.ok msgs) deleteFails db).queued = (runBlockLoop msgs (db, [])).2 := by
  have hne : msgs.isEmpty = false := by
    cases msgs with
    | nil => exact absurd rfl h
    | cons a l => rfl
  simp only [processBlockFolder, hne, Bool.false_eq_true, if_false]
  split <;> exact ⟨rfl, rfl⟩

theorem processTransactionalOnlyFolder_ok (msgs : List (FetchedEmail × MsgOracle))
    (deleteFails : Bool) (db : DBState) (h : msgs ≠ []) :
    (processTransactionalOnlyFolder (.ok msgs) deleteFails db).db =
      (runTransactionalOnlyLoop msgs (db, [])).1 ∧
    (processTransactionalOnlyFolder (.ok msgs) deleteFails db).queued =
      (runTransactionalOnlyLoop msgs (db, [])).2 := by
  have hne : msgs.isEmpty = false := by
    cases msgs with
    | nil => exact absurd rfl h
    | cons a l => rfl
  simp only [processTransactionalOnlyFolder, hne, Bool.false_eq_true, if_false]
  split <;> exact ⟨rfl, rfl⟩

/-! ## Claims about the poll cycle -/

/-- Folders surviving the exclusion filter lie outside the excluded set. -/
theorem mem_filter_not_excluded (allFolders : List String) (f : String)
    (h : f ∈ allFolders.filter (fun folder => !excludedFolders folder)) :
    f ∉ excludedFolderNames := by
  have hb : (!excludedFolders f) = true := (List.mem_filter.mp h).2
  intro hmem
  have hc : excludedFolders f = true := by
    simp only [excludedFolders]
    simpa using hmem
  rw [hc] at hb
  simp at hb

/-- Every folder Step 3 passes to the scan survives the exclusion
filter. -/
theorem deleteBlockedSenderEmails_scanned (env : EnforceEnv) (db : DBState)
    (f : String)
    (h : f ∈ (deleteBlockedSenderEmails env db).scannedFolders) :
    f ∉ excludedFolderNames := by
  simp only [deleteBlockedSenderEmails] at h
  split at h
  · simp at h
  · split at h
    · simp at h
    · split at h
      · simp at h
      · split at h
        · exact mem_filter_not_excluded _ f (by simpa using h)
        · split at h
          · exact mem_filter_not_excluded _ f (by simpa using h)
          · exact mem_filter_not_excluded _ f (by simpa using h)

/-- Every folder Step 4 passes to the scan survives the exclusion
filter. -/
theorem filterMarketingEmails_scanned (env : EnforceEnv) (db : DBState)
    (f : String)
    (h : f ∈ (filterMarketingEmails env db).scannedFolders) :
    f ∉ excludedFolderNames := by
  simp only [filterMarketingEmails] at h
  split at h
  · simp at h
  · split at h
    · simp at h
    · split at h
      · simp at h
      · split at h
        · exact mem_filter_not_excluded _ f (by simpa using h)
        · split at h
          · exact mem_filter_not_excluded _ f (by simpa using h)
          · exact mem_filter_not_excluded _ f (by simpa using h)

/-- C1: the enforcement scans of Step 3 (`deleteBlockedSenderEmails`)
and Step 4 (`filterMarketingEmails`) never pass a folder of the fixed
excluded set (`Orders`, `USPIS`, `USPIS/Block`,
`USPIS/Transactional Only`, `Sent Messages`, `Drafts`,
`Deleted Messages`) to the folder scan, for every folder list — hence
every casing and ordering — the Mail Store returns. -/
theorem exclusion_correctness (env3 env4 : EnforceEnv) (db3 db4 : DBState)
    (f : String)
    (h : f ∈ (deleteBlockedSenderEmails env3 db3).scannedFolders ∨
         f ∈ (filterMarketingEmails env4 db4).scannedFolders) :
    f ∉ excludedFolderNames := by
  cases h with
  | inl h => exact deleteBlockedSenderEmails_scanned env3 db3 f h
  | inr h => exact filterMarketingEmails_scanned env4 db4 f h

/-- Witness for C1: with folders `INBOX`, `Orders`, `USPIS/Block`,
`Archive` listed, `INBOX` is scanned and is not excluded. -/
theorem exclusion_correctness_witness :
    ("INBOX" ∈ (deleteBlockedSenderEmails scanEnv dbWithPolicies).scannedFolders ∨
     "INBOX" ∈ (filterMarketingEmails scanEnv dbWithPolicies).scannedFolders) ∧
    "INBOX" ∉ excludedFolderNames :=
  ⟨Or.inl (by decide),
   exclusion_correctness scanEnv scanEnv dbWithPolicies dbWithPolicies "INBOX"
     (Or.inl (by decide))⟩

/-- C2 counterexample: a Block-folder message with non-empty From whose
`IsBlocked` lookup errors is skipped — its UID is not queued and no
`deleted_email` log entry is appended (here the whole log stays
empty), so the claim's unconditional append-and-queue statement fails
for it. -/
theorem intake_unconditional_delete_cex :
    toLowerStr wEmail.From ≠ "" ∧
    (processBlockFolder (.ok [(wEmail, lookupErrOracle)]) false emptyDB).queued = [] ∧
    (processBlockFolder (.ok [(wEmail, lookupErrOracle)]) false emptyDB).db.actionLog = [] :=
  ⟨by decide, by decide, by decide⟩

/-- C2 (amended): every Block-folder (resp. Transactional-Only-folder)
message whose lower-cased From is non-empty **and whose
policy-membership lookup does not error** has its UID queued for the
batch deletion and a `deleted_email` entry appended by Step 1
(resp. Step 2), regardless of whether the policy write
(`AddBlockedSender` / `AddTransactionalOnlySender`) fails. -/
theorem intake_unconditional_delete
    (msgsB msgsT : List (FetchedEmail × MsgOracle)) (dB dT : Bool)
    (dbB dbT : DBState) (eB eT : FetchedEmail) (oB oT : MsgOracle)
    (hmB : (eB, oB) ∈ msgsB) (hmT : (eT, oT) ∈ msgsT)
    (hfromB : ¬ toLowerStr eB.From = "") (hfromT : ¬ toLowerStr eT.From = "")
    (hlkB : oB.lookupErr = false) (hlkT : oT.lookupErr = false) :
    (eB.UID ∈ (processBlockFolder (.ok msgsB) dB dbB).queued ∧
     ∃ ref, (⟨ActionDeletedEmail, toLowerStr eB.From, eB.Subject, eB.MessageID,
        "Deleted from Block folder", ref⟩ : LogEntry) ∈
       (processBlockFolder (.ok msgsB) dB dbB).db.actionLog) ∧
    (eT.UID ∈ (processTransactionalOnlyFolder (.ok msgsT) dT dbT).queued ∧
     ∃ ref, (⟨ActionDeletedEmail, toLowerStr eT.From, eT.Subject, eT.MessageID,
        "Deleted from Transactional Only folder", ref⟩ : LogEntry) ∈
       (processTransactionalOnlyFolder (.ok msgsT) dT dbT).db.actionLog) := by
  constructor
  · obtain ⟨pre, post, rfl⟩ := List.append_of_mem hmB
    have hne : pre ++ (eB, oB) :: post ≠ [] := by simp
    obtain ⟨hdb, hq⟩ := processBlockFolder_ok (pre ++ (eB, oB) :: post) dB dbB hne
    rw [hdb, hq]
    exact runBlockLoop_member pre post (eB, oB) (dbB, []) hfromB hlkB
  · obtain ⟨pre, post, rfl⟩ := List.append_of_mem hmT
    have hne : pre ++ (eT, oT) :: post ≠ [] := by simp
    obtain ⟨hdb, hq⟩ := processTransactionalOnlyFolder_ok (pre ++ (eT, oT) :: post) dT dbT hne
    rw [hdb, hq]
    exact runTransactionalOnlyLoop_member pre post (eT, oT) (dbT, []) hfromT hlkT

/-- Witness for the amended C2: a single intake message whose policy
write fails is still queued and logged, in both intake steps. -/
theorem intake_unconditional_delete_witness :
    (wEmail.UID ∈
       (processBlockFolder (.ok [(wEmail, policyWriteErrOracle)]) false emptyDB).queued ∧
     ∃ ref, (⟨ActionDeletedEmail, toLowerStr wEmail.From, wEmail.Subject, wEmail.MessageID,
        "Deleted from Block folder", ref⟩ : LogEntry) ∈
       (processBlockFolder (.ok [(wEmail, policyWriteErrOracle)]) false emptyDB).db.actionLog) ∧
    (wEmail.UID ∈
       (processTransactionalOnlyFolder (.ok [(wEmail, policyWriteErrOracle)]) false emptyDB).queued ∧
     ∃ ref, (⟨ActionDeletedEmail, toLowerStr wEmail.From, wEmail.Subject, wEmail.MessageID,
        "Deleted from Transactional Only folder", ref⟩ : LogEntry) ∈
       (processTransactionalOnlyFolder (.ok [(wEmail, policyWriteErrOracle)]) false emptyDB).db.actionLog) :=
  intake_unconditional_delete
    [(wEmail, policyWriteErrOracle)] [(wEmail, policyWriteErrOracle)]
    false false emptyDB emptyDB wEmail wEmail
    policyWriteErrOracle policyWriteErrOracle
    (List.mem_singleton.mpr rfl) (List.mem_singleton.mpr rfl)
    (by decide) (by decide) rfl rfl

/-- C10: a fetched intake message with non-empty From whose
policy-membership lookup errors is skipped entirely — no UID queued,
no log entry appended, no policy row created — so the message survives
in the intake folder for the next cycle; by contrast, an oracle whose
lookup works still queues the UID even when the policy write fails. -/
theorem lookup_error_skips_message (o o2 : MsgOracle) (email : FetchedEmail)
    (st : DBState × List Nat)
    (hfrom : ¬ toLowerStr email.From = "")
    (hlk : o.lookupErr = true) (hlk2 : o2.lookupErr = false) :
    ((processBlockEmail o email st).2 = st.2 ∧
     (processBlockEmail o email st).1.actionLog = st.1.actionLog ∧
     (processBlockEmail o email st).1.blockedSenders = st.1.blockedSenders) ∧
    ((processTransactionalOnlyEmail o email st).2 = st.2 ∧
     (processTransactionalOnlyEmail o email st).1.actionLog = st.1.actionLog ∧
     (processTransactionalOnlyEmail o email st).1.transactionalOnlySenders =
       st.1.transactionalOnlySenders) ∧
    (processBlockEmail o2 email st).2 = st.2 ++ [email.UID] ∧
    (processTransactionalOnlyEmail o2 email st).2 = st.2 ++ [email.UID] := by
  have hb := processBlockEmail_skip o email st hfrom hlk
  have ht := processTransactionalOnlyEmail_skip o email st hfrom hlk
  have hf := saveEmailDetail_fields o st.1 email
  refine ⟨⟨?_, ?_, ?_⟩, ⟨?_, ?_, ?_⟩, ?_, ?_⟩
  · rw [hb]
  · rw [hb]; exact hf.1
  · rw [hb]; exact hf.2.1
  · rw [ht]
  · rw [ht]; exact hf.1
  · rw [ht]; exact hf.2.2
  · exact (processBlockEmail_deleted o2 email st hfrom hlk2).1
  · exact (processTransactionalOnlyEmail_deleted o2 email st hfrom hlk2).1

/-- Witness for C10 on a concrete message and oracles. -/
theorem lookup_error_skips_message_witness :
    ((processBlockEmail lookupErrOracle wEmail (emptyDB, [])).2 = [] ∧
     (processBlockEmail lookupErrOracle wEmail (emptyDB, [])).1.actionLog = emptyDB.actionLog ∧
     (processBlockEmail lookupErrOracle wEmail (emptyDB, [])).1.blockedSenders = emptyDB.blockedSenders) ∧
    ((processTransactionalOnlyEmail lookupErrOracle wEmail (emptyDB, [])).2 = [] ∧
     (processTransactionalOnlyEmail lookupErrOracle wEmail (emptyDB, [])).1.actionLog = emptyDB.actionLog ∧
     (processTransactionalOnlyEmail lookupErrOracle wEmail (emptyDB, [])).1.transactionalOnlySenders =
       emptyDB.transactionalOnlySenders) ∧
    (processBlockEmail policyWriteErrOracle wEmail (emptyDB, [])).2 = [] ++ [wEmail.UID] ∧
    (processTransactionalOnlyEmail policyWriteErrOracle wEmail (emptyDB, [])).2 = [] ++ [wEmail.UID] :=
  lookup_error_skips_message lookupErrOracle policyWriteErrOracle wEmail
    (emptyDB, []) (by decide) rfl rfl

/-- C9: when an intake fetch fails because the folder cannot be selected,
the step succeeds and leaves the whole database (policies, snapshots,
log) untouched with nothing queued; a non-selection fetch failure makes
the step report an error, likewise without touching any state. -/
theorem intake_benign_absence (deleteFails1 deleteFails2 : Bool)
    (db1 db2 : DBState) :
    processBlockFolder .selectErr deleteFails1 db1 = ⟨db1, [], true⟩ ∧
    processTransactionalOnlyFolder .selectErr deleteFails2 db2 = ⟨db2, [], true⟩ ∧
    processBlockFolder .otherErr deleteFails1 db1 = ⟨db1, [], false⟩ ∧
    processTransactionalOnlyFolder .otherErr deleteFails2 db2 = ⟨db2, [], false⟩ :=
  ⟨rfl, rfl, rfl, rfl⟩

/-- C5: even when Step 1 reports an error, the poll cycle still runs
Steps 2, 3 and 4 in order in the same cycle — the trace always lists
all four steps, and the final database state is the sequential
composition of the four step functions, each consuming its
predecessor's state. -/
theorem failure_isolation (env : CycleEnv) (db : DBState)
    (h : (processBlockFolder env.blockFetch env.blockDeleteFails db).ok = false) :
    ((poll env db).2.map Prod.fst) =
      [StepName.blockIntake, StepName.transactionalOnlyIntake,
       StepName.blockEnforce, StepName.marketingFilter] ∧
    (poll env db).1 =
      (filterMarketingEmails env.marketingFilter
        (deleteBlockedSenderEmails env.blockEnforce
          (processTransactionalOnlyFolder env.transFetch env.transDeleteFails
            (processBlockFolder env.blockFetch env.blockDeleteFails db).db).db).db).db :=
  ⟨rfl, rfl⟩

/-- Witness for C5: in a cycle whose Step 1 fetch fails with a
non-selection (connectivity) error, all four steps still execute. -/
theorem failure_isolation_witness :
    ((poll step1FailEnv emptyDB).2.map Prod.fst) =
      [StepName.blockIntake, StepName.transactionalOnlyIntake,
       StepName.blockEnforce, StepName.marketingFilter] ∧
    (poll step1FailEnv emptyDB).1 =
      (filterMarketingEmails step1FailEnv.marketingFilter
        (deleteBlockedSenderEmails step1FailEnv.blockEnforce
          (processTransactionalOnlyFolder step1FailEnv.transFetch step1FailEnv.transDeleteFails
            (processBlockFolder step1FailEnv.blockFetch step1FailEnv.blockDeleteFails
              emptyDB).db).db).db).db :=
  failure_isolation step1FailEnv emptyDB rfl

end PostalInspection
